import Mathlib

/-!
# Discussions configuration data layer: shallow embedding

A verification development for the discussions-configuration data layer of
the course-authoring frontend.  The repository slice under scrutiny contains
the integration tests (`src/unnamed/part_000`) and the API fixtures
(`mockApiResponses.js`); the adapter (`decodeApps` / `encodeAppConfig`),
the thunks (`fetchApps` / `saveAppConfig`) and the slice actions
(`selectApp` / `updateValidationStatus`) are modelled from the
specification, pinned down at the concrete fixtures by the expectations of
the test file.

The wire format keeps `discussion_blackouts` as a real nested array of date
strings while the internal model stores its JSON-stringified form, so the
development starts with an executable stringify/parse pair for that JSON
fragment and proves they are exact inverses.
-/

namespace Discussions

/-- JSON string escaping for one character: a quote or a backslash is
preceded by a backslash, every other character is emitted verbatim. -/
def escChar (c : Char) : List Char :=
  if c = '"' ∨ c = '\\' then ['\\', c] else [c]

/-- JSON encoding of a string: quote, escaped body, quote. -/
def encJsonString (s : String) : List Char :=
  '"' :: ((s.data.flatMap escChar) ++ ['"'])

/-- Comma-separated concatenation of encoded items (no trailing comma),
matching the output shape of `JSON.stringify`. -/
def commaSep : List (List Char) → List Char
  | [] => []
  | [x] => x
  | x :: y :: rest => x ++ (',' :: commaSep (y :: rest))

/-- JSON encoding of an array of strings. -/
def encJsonStrList (xs : List String) : List Char :=
  '[' :: (commaSep (xs.map encJsonString) ++ [']'])

/-- JSON encoding of an array of arrays of strings — the wire shape of
`discussion_blackouts`. -/
def encJsonStrListList (xss : List (List String)) : List Char :=
  '[' :: (commaSep (xss.map encJsonStrList) ++ [']'])

/-- `JSON.stringify` for the blackout-dates value, as performed by the
decode direction of the wire schema adapter. -/
def stringifyBlackouts (xss : List (List String)) : String :=
  ⟨encJsonStrListList xss⟩

/-- Parse the body of a JSON string up to (and consuming) the closing
quote, undoing the backslash escapes; returns the decoded characters and
the unconsumed suffix.  The fuel argument bounds recursion depth and is
sized from the input length at the top level. -/
def parseStrBody : Nat → List Char → Option (List Char × List Char)
  | 0, _ => none
  | fuel + 1, l =>
    match l with
    | [] => none
    | c :: rest =>
      if c = '"' then some ([], rest)
      else if c = '\\' then
        match rest with
        | [] => none
        | d :: rest2 =>
          match parseStrBody fuel rest2 with
          | some p => some (d :: p.1, p.2)
          | none => none
      else
        match parseStrBody fuel rest with
        | some p => some (c :: p.1, p.2)
        | none => none

/-- Parse a complete JSON string (opening quote, body, closing quote). -/
def parseJsonString (fuel : Nat) : List Char → Option (String × List Char)
  | [] => none
  | c :: rest =>
    if c = '"' then
      match parseStrBody fuel rest with
      | some p => some (⟨p.1⟩, p.2)
      | none => none
    else none

/-- Parse the items of a non-empty JSON string array after the opening
bracket: one string, then either the closing bracket or a comma and more
items. -/
def parseStrItems : Nat → List Char → Option (List String × List Char)
  | 0, _ => none
  | fuel + 1, l =>
    match parseJsonString (fuel + 1) l with
    | none => none
    | some p =>
      match p.2 with
      | [] => none
      | c :: r2 =>
        if c = ']' then some ([p.1], r2)
        else if c = ',' then
          match parseStrItems fuel r2 with
          | some q => some (p.1 :: q.1, q.2)
          | none => none
        else none

/-- Parse a JSON array of strings. -/
def parseJsonStrList (fuel : Nat) : List Char → Option (List String × List Char)
  | [] => none
  | c :: rest =>
    if c = '[' then
      match rest with
      | [] => none
      | d :: r2 => if d = ']' then some ([], r2) else parseStrItems fuel (d :: r2)
    else none

/-- Parse the items of a non-empty JSON array of string arrays after the
opening bracket. -/
def parseListItems : Nat → List Char → Option (List (List String) × List Char)
  | 0, _ => none
  | fuel + 1, l =>
    match parseJsonStrList (fuel + 1) l with
    | none => none
    | some p =>
      match p.2 with
      | [] => none
      | c :: r2 =>
        if c = ']' then some ([p.1], r2)
        else if c = ',' then
          match parseListItems fuel r2 with
          | some q => some (p.1 :: q.1, q.2)
          | none => none
        else none

/-- Parse a JSON array of arrays of strings. -/
def parseJsonStrListList : List Char → Option (List (List String) × List Char)
  | [] => none
  | c :: rest =>
    if c = '[' then
      match rest with
      | [] => none
      | d :: r2 =>
        if d = ']' then some ([], r2) else parseListItems (d :: r2).length (d :: r2)
    else none

/-- `JSON.parse` for the blackout-dates value, as performed by the encode
direction of the wire schema adapter; fails unless the whole input is one
well-formed array of arrays of strings. -/
def parseBlackouts (s : String) : Option (List (List String)) :=
  match parseJsonStrListList s.data with
  | some p => if p.2 = [] then some p.1 else none
  | none => none

theorem parseStrBody_enc (s : List Char) :
    ∀ (rest : List Char) (fuel : Nat),
      ((s.flatMap escChar) ++ ('"' :: rest)).length ≤ fuel →
      parseStrBody fuel ((s.flatMap escChar) ++ ('"' :: rest)) = some (s, rest) := by
  induction s with
  | nil =>
    intro rest fuel hfuel
    simp at hfuel
    obtain ⟨f, rfl⟩ := Nat.exists_eq_succ_of_ne_zero (by omega : fuel ≠ 0)
    simp [parseStrBody]
  | cons c s ih =>
    intro rest fuel hfuel
    by_cases hc : c = '"' ∨ c = '\\'
    · have hshape : ((c :: s).flatMap escChar) ++ ('"' :: rest)
          = '\\' :: (c :: ((s.flatMap escChar) ++ ('"' :: rest))) := by
        simp [escChar, hc]
      rw [hshape] at hfuel ⊢
      simp at hfuel
      obtain ⟨f, rfl⟩ := Nat.exists_eq_succ_of_ne_zero (by omega : fuel ≠ 0)
      have h1 : ¬('\\' = '"') := by decide
      have hrec : ((s.flatMap escChar) ++ ('"' :: rest)).length ≤ f := by
        simp
        omega
      simp [parseStrBody, h1, ih rest f hrec]
    · push_neg at hc
      have hshape : ((c :: s).flatMap escChar) ++ ('"' :: rest)
          = c :: ((s.flatMap escChar) ++ ('"' :: rest)) := by
        simp [escChar, hc.1, hc.2]
      rw [hshape] at hfuel ⊢
      simp at hfuel
      obtain ⟨f, rfl⟩ := Nat.exists_eq_succ_of_ne_zero (by omega : fuel ≠ 0)
      have hrec : ((s.flatMap escChar) ++ ('"' :: rest)).length ≤ f := by
        simp
        omega
      simp [parseStrBody, hc.1, hc.2, ih rest f hrec]

theorem parseJsonString_enc (s : String) (rest : List Char) (fuel : Nat)
    (hfuel : (encJsonString s ++ rest).length ≤ fuel) :
    parseJsonString fuel (encJsonString s ++ rest) = some (s, rest) := by
  have hshape : encJsonString s ++ rest = '"' :: ((s.data.flatMap escChar) ++ ('"' :: rest)) := by
    simp [encJsonString]
  rw [hshape] at hfuel ⊢
  have hrec : ((s.data.flatMap escChar) ++ ('"' :: rest)).length ≤ fuel := by
    simp only [List.length_cons] at hfuel
    omega
  simp [parseJsonString, parseStrBody_enc s.data rest fuel hrec]

theorem encJsonString_len (s : String) : 2 ≤ (encJsonString s).length := by
  simp only [encJsonString, List.length_cons, List.length_append]
  omega

theorem parseStrItems_enc (xs : List String) :
    ∀ (x : String) (rest : List Char) (fuel : Nat),
      (commaSep ((x :: xs).map encJsonString) ++ (']' :: rest)).length ≤ fuel →
      parseStrItems fuel (commaSep ((x :: xs).map encJsonString) ++ (']' :: rest))
        = some (x :: xs, rest) := by
  induction xs with
  | nil =>
    intro x rest fuel hfuel
    have hlen := encJsonString_len x
    have hpos : fuel ≠ 0 := by
      simp [commaSep] at hfuel
      omega
    obtain ⟨f, rfl⟩ := Nat.exists_eq_succ_of_ne_zero hpos
    have hcond : (encJsonString x ++ (']' :: rest)).length ≤ f + 1 := by
      simpa [commaSep] using hfuel
    simp [commaSep, parseStrItems, parseJsonString_enc x (']' :: rest) (f + 1) hcond]
  | cons y ys ih =>
    intro x rest fuel hfuel
    obtain ⟨inner, hinner, hitems⟩ : ∃ inner,
        commaSep ((x :: y :: ys).map encJsonString) ++ (']' :: rest)
          = encJsonString x ++ (',' :: inner)
        ∧ ∀ f, inner.length ≤ f → parseStrItems f inner = some (y :: ys, rest) :=
      ⟨commaSep ((y :: ys).map encJsonString) ++ (']' :: rest),
        by simp [commaSep, List.append_assoc],
        fun f hf => ih y rest f hf⟩
    rw [hinner] at hfuel ⊢
    have hlen := encJsonString_len x
    have hpos : fuel ≠ 0 := by
      simp only [List.length_append, List.length_cons] at hfuel
      omega
    obtain ⟨f, rfl⟩ := Nat.exists_eq_succ_of_ne_zero hpos
    have hcond : (encJsonString x ++ (',' :: inner)).length ≤ f + 1 := hfuel
    have hrec : inner.length ≤ f := by
      simp only [List.length_append, List.length_cons] at hfuel
      omega
    have hne1 : ¬(',' = ']') := by decide
    simp [parseStrItems, parseJsonString_enc x _ (f + 1) hcond, hne1, hitems f hrec]

theorem parseJsonStrList_enc (xs : List String) (rest : List Char) (fuel : Nat)
    (hfuel : (encJsonStrList xs ++ rest).length ≤ fuel) :
    parseJsonStrList fuel (encJsonStrList xs ++ rest) = some (xs, rest) := by
  cases xs with
  | nil => simp [encJsonStrList, commaSep, parseJsonStrList]
  | cons x xs =>
    obtain ⟨t0, ht0⟩ : ∃ t0, commaSep ((x :: xs).map encJsonString) = '"' :: t0 := by
      cases xs with
      | nil => exact ⟨(x.data.flatMap escChar) ++ ['"'], by simp [commaSep, encJsonString]⟩
      | cons y ys =>
        exact ⟨((x.data.flatMap escChar) ++ ['"'])
            ++ (',' :: commaSep ((y :: ys).map encJsonString)),
          by simp [commaSep, encJsonString]⟩
    have hshape : encJsonStrList (x :: xs) ++ rest
        = '[' :: ('"' :: (t0 ++ (']' :: rest))) := by
      rw [encJsonStrList, ht0]
      simp
    have hback : '"' :: (t0 ++ (']' :: rest))
        = commaSep ((x :: xs).map encJsonString) ++ (']' :: rest) := by
      rw [ht0]
      simp
    have hcond : (commaSep ((x :: xs).map encJsonString) ++ (']' :: rest)).length ≤ fuel := by
      rw [hshape] at hfuel
      rw [← hback]
      simp at hfuel ⊢
      omega
    rw [hshape]
    have hne : ¬('"' = ']') := by decide
    simp only [parseJsonStrList, if_pos rfl, if_neg hne]
    rw [hback]
    exact parseStrItems_enc xs x rest fuel hcond

theorem encJsonStrList_len (xs : List String) : 2 ≤ (encJsonStrList xs).length := by
  simp only [encJsonStrList, List.length_cons, List.length_append]
  omega

theorem parseListItems_enc (xss : List (List String)) :
    ∀ (xs : List String) (rest : List Char) (fuel : Nat),
      (commaSep ((xs :: xss).map encJsonStrList) ++ (']' :: rest)).length ≤ fuel →
      parseListItems fuel (commaSep ((xs :: xss).map encJsonStrList) ++ (']' :: rest))
        = some (xs :: xss, rest) := by
  induction xss with
  | nil =>
    intro xs rest fuel hfuel
    have hlen := encJsonStrList_len xs
    have hpos : fuel ≠ 0 := by
      simp [commaSep] at hfuel
      omega
    obtain ⟨f, rfl⟩ := Nat.exists_eq_succ_of_ne_zero hpos
    have hcond : (encJsonStrList xs ++ (']' :: rest)).length ≤ f + 1 := by
      simpa [commaSep] using hfuel
    simp [commaSep, parseListItems, parseJsonStrList_enc xs (']' :: rest) (f + 1) hcond]
  | cons ys yss ih =>
    intro xs rest fuel hfuel
    obtain ⟨inner, hinner, hitems⟩ : ∃ inner,
        commaSep ((xs :: ys :: yss).map encJsonStrList) ++ (']' :: rest)
          = encJsonStrList xs ++ (',' :: inner)
        ∧ ∀ f, inner.length ≤ f → parseListItems f inner = some (ys :: yss, rest) :=
      ⟨commaSep ((ys :: yss).map encJsonStrList) ++ (']' :: rest),
        by simp [commaSep, List.append_assoc],
        fun f hf => ih ys rest f hf⟩
    rw [hinner] at hfuel ⊢
    have hlen := encJsonStrList_len xs
    have hpos : fuel ≠ 0 := by
      simp only [List.length_append, List.length_cons] at hfuel
      omega
    obtain ⟨f, rfl⟩ := Nat.exists_eq_succ_of_ne_zero hpos
    have hcond : (encJsonStrList xs ++ (',' :: inner)).length ≤ f + 1 := hfuel
    have hrec : inner.length ≤ f := by
      simp only [List.length_append, List.length_cons] at hfuel
      omega
    have hne1 : ¬(',' = ']') := by decide
    simp [parseListItems, parseJsonStrList_enc xs _ (f + 1) hcond, hne1, hitems f hrec]

/-- The stringify/parse pair for blackout dates are exact inverses:
parsing any stringified nested array of date strings recovers it. -/
theorem parseBlackouts_stringify (xss : List (List String)) :
    parseBlackouts (stringifyBlackouts xss) = some xss := by
  cases xss with
  | nil => decide
  | cons xs xss =>
    obtain ⟨t0, ht0⟩ : ∃ t0, commaSep ((xs :: xss).map encJsonStrList) = '[' :: t0 := by
      cases xss with
      | nil =>
        exact ⟨commaSep (xs.map encJsonString) ++ [']'], by simp [commaSep, encJsonStrList]⟩
      | cons ys yss =>
        exact ⟨(commaSep (xs.map encJsonString) ++ [']'])
            ++ (',' :: commaSep ((ys :: yss).map encJsonStrList)),
          by simp [commaSep, encJsonStrList]⟩
    have hshape : (stringifyBlackouts (xs :: xss)).data
        = '[' :: ('[' :: (t0 ++ ([']'] : List Char))) := by
      show encJsonStrListList (xs :: xss) = _
      rw [encJsonStrListList, ht0]
      simp
    have hback : '[' :: (t0 ++ ([']'] : List Char))
        = commaSep ((xs :: xss).map encJsonStrList) ++ (']' :: ([] : List Char)) := by
      rw [ht0]
      simp
    have hne : ¬('[' = ']') := by decide
    rw [parseBlackouts, hshape]
    simp only [parseJsonStrListList, if_pos rfl, if_neg hne]
    rw [hback]
    rw [parseListItems_enc xss xs [] _ (by omega)]
    simp

/-! ## Data model and wire format -/

/-- Load-status enum of the session state: `LOADED | FAILED | DENIED`
plus the initial/idle value. -/
inductive LoadStatus where
  | IDLE
  | LOADED
  | FAILED
  | DENIED
deriving DecidableEq

/-- Save-status enum: `SAVED | FAILED | DENIED`; `SAVED` doubles as the
"nothing in flight / no error" default at initialization. -/
inductive SaveStatus where
  | SAVED
  | FAILED
  | DENIED
deriving DecidableEq

/-- Wire shape of a non-empty `lti_configuration` object. -/
structure LtiConfiguration where
  lti_1p1_client_key : String
  lti_1p1_client_secret : String
  lti_1p1_launch_url : String
  version : String
deriving DecidableEq

/-- Wire shape of a non-empty `plugin_configuration` object;
`discussion_blackouts` is a real nested array on the wire. -/
structure PluginConfiguration where
  allow_anonymous : Bool
  allow_anonymous_to_peers : Bool
  discussion_blackouts : List (List String)
deriving DecidableEq

/-- Wire shape of the `providers` object: the active provider id and the
insertion-ordered map from provider id to its feature-id list. -/
structure Providers where
  active : String
  available : List (String × List String)
deriving DecidableEq

/-- Wire shape of the GET/POST response body for the apps endpoint.  An
empty `{}` object for `lti_configuration` / `plugin_configuration` is
represented as `none`. -/
structure ApiResponse where
  context_key : String
  enabled : Bool
  provider_type : String
  features : List String
  lti_configuration : Option LtiConfiguration
  plugin_configuration : Option PluginConfiguration
  providers : Providers
deriving DecidableEq

/-- Internal model of a discussion provider. -/
structure App where
  id : String
  featureIds : List String
  documentationUrl : String
  hasFullSupport : Bool
deriving DecidableEq

/-- Internal legacy-provider configuration; `blackoutDates` holds the
JSON-stringified form of the wire array, and the five cohort-division
fields are not round-tripped by the backend. -/
structure LegacyConfig where
  id : String
  allowAnonymousPosts : Bool
  allowAnonymousPostsPeers : Bool
  blackoutDates : String
  divideByCohorts : Bool
  allowDivisionByUnit : Bool
  divideCourseWideTopics : Bool
  divideGeneralTopic : Bool
  divideQuestionsForTAsTopic : Bool
deriving DecidableEq

/-- Internal LTI-provider configuration. -/
structure LtiAppConfig where
  id : String
  consumerKey : String
  consumerSecret : String
  launchUrl : String
deriving DecidableEq

/-- A provider configuration entity: legacy-shaped or LTI-shaped. -/
inductive AppConfig where
  | legacy (c : LegacyConfig)
  | lti (c : LtiAppConfig)
deriving DecidableEq

/-- UI form values for a legacy provider (camelCase, stringified arrays). -/
structure FormValuesLegacy where
  allowAnonymousPosts : Bool
  allowAnonymousPostsPeers : Bool
  blackoutDates : String
  divideByCohorts : Bool
  allowDivisionByUnit : Bool
  divideCourseWideTopics : Bool
  divideGeneralTopic : Bool
  divideQuestionsForTAsTopic : Bool
deriving DecidableEq

/-- UI form values for an LTI provider. -/
structure FormValuesLti where
  consumerKey : String
  consumerSecret : String
  launchUrl : String
deriving DecidableEq

/-- UI-edited values handed to `saveAppConfig`. -/
inductive FormValues where
  | legacy (v : FormValuesLegacy)
  | lti (v : FormValuesLti)
deriving DecidableEq

/-- Backend POST body produced by `encodeAppConfig`. -/
structure PostBody where
  context_key : String
  enabled : Bool
  provider_type : String
  lti_configuration : Option LtiConfiguration
  plugin_configuration : Option PluginConfiguration
deriving DecidableEq

/-- Output of `decodeApps`: ordered app list, the feature catalog in
first-seen order, the backend-active app id, and one config per app id. -/
structure DecodedApps where
  apps : List App
  features : List String
  activeAppId : String
  appConfigs : List (String × AppConfig)
deriving DecidableEq

/-- The form-values projection of a legacy configuration, as the UI form
layer submits it back. -/
def LegacyConfig.toFormValues (c : LegacyConfig) : FormValuesLegacy :=
  { allowAnonymousPosts := c.allowAnonymousPosts
    allowAnonymousPostsPeers := c.allowAnonymousPostsPeers
    blackoutDates := c.blackoutDates
    divideByCohorts := c.divideByCohorts
    allowDivisionByUnit := c.allowDivisionByUnit
    divideCourseWideTopics := c.divideCourseWideTopics
    divideGeneralTopic := c.divideGeneralTopic
    divideQuestionsForTAsTopic := c.divideQuestionsForTAsTopic }

/-- Modelled from the spec: the feature catalog of `decodeApps` (the
adapter source is not part of this slice) — the union of all feature ids
across all `providers.available` entries, in first-seen order over the
backend map's insertion order. -/
def unionFeatures (available : List (String × List String)) : List String :=
  available.foldl
    (fun acc p => p.2.foldl (fun a f => if f ∈ a then a else a ++ [f]) acc) []

/-- Modelled from the spec: the default/empty configuration synthesized
for a known app id whose data the backend did not return, matching the
provider-type conventions (legacy defaults per the data model; an empty
LTI shape otherwise). -/
def defaultConfig (appId : String) : AppConfig :=
  if appId = "legacy" then
    AppConfig.legacy
      { id := "legacy", allowAnonymousPosts := false, allowAnonymousPostsPeers := false
        blackoutDates := "[]", divideByCohorts := false, allowDivisionByUnit := false
        divideCourseWideTopics := false, divideGeneralTopic := false
        divideQuestionsForTAsTopic := false }
  else
    AppConfig.lti { id := appId, consumerKey := "", consumerSecret := "", launchUrl := "" }

/-- Modelled from the spec: decoding of the active provider's
configuration (the adapter source is not part of this slice) — a
non-empty `lti_configuration` decodes to the LTI shape, otherwise a
non-empty `plugin_configuration` decodes to the legacy shape with
`discussion_blackouts` JSON-stringified into `blackoutDates` and the five
cohort-division fields defaulted to `false`. -/
def decodeActiveConfig (raw : ApiResponse) : AppConfig :=
  match raw.lti_configuration with
  | some lti =>
    AppConfig.lti
      { id := raw.provider_type, consumerKey := lti.lti_1p1_client_key
        consumerSecret := lti.lti_1p1_client_secret, launchUrl := lti.lti_1p1_launch_url }
  | none =>
    match raw.plugin_configuration with
    | some pc =>
      AppConfig.legacy
        { id := raw.provider_type, allowAnonymousPosts := pc.allow_anonymous
          allowAnonymousPostsPeers := pc.allow_anonymous_to_peers
          blackoutDates := stringifyBlackouts pc.discussion_blackouts
          divideByCohorts := false, allowDivisionByUnit := false
          divideCourseWideTopics := false, divideGeneralTopic := false
          divideQuestionsForTAsTopic := false }
    | none => defaultConfig raw.provider_type

/-- Modelled from the spec: `decodeApps` (the adapter source is not part
of this slice) — one app per `providers.available` entry in backend key
order, `hasFullSupport` iff the app's features cover the whole catalog,
the constant documentation URL expected by the tests, the active config
decoded from the payload and every other config synthesized by
`defaultConfig`. -/
def decodeApps (raw : ApiResponse) : DecodedApps :=
  let catalog := unionFeatures raw.providers.available
  { apps := raw.providers.available.map (fun p =>
      { id := p.1, featureIds := p.2, documentationUrl := "http://example.com"
        hasFullSupport := catalog.all (fun f => decide (f ∈ p.2)) })
    features := catalog
    activeAppId := raw.providers.active
    appConfigs := raw.providers.available.map (fun p =>
      (p.1, if p.1 = raw.provider_type then decodeActiveConfig raw else defaultConfig p.1)) }

/-- Modelled from the spec: `encodeAppConfig` (the adapter source is not
part of this slice) — the inverse mapping from UI form values to the POST
body; for legacy, `blackoutDates` is JSON-parsed back into a real nested
array and the cohort-division fields are not transmitted.  Returns `none`
when the stringified blackout dates fail to parse. -/
def encodeAppConfig (courseId : String) (appId : String) (fv : FormValues) :
    Option PostBody :=
  match fv with
  | FormValues.lti v =>
    some
      { context_key := courseId, enabled := true, provider_type := appId
        lti_configuration := some
          { lti_1p1_client_key := v.consumerKey, lti_1p1_client_secret := v.consumerSecret
            lti_1p1_launch_url := v.launchUrl, version := "lti_1p1" }
        plugin_configuration := none }
  | FormValues.legacy v =>
    match parseBlackouts v.blackoutDates with
    | none => none
    | some bd =>
      some
        { context_key := courseId, enabled := true, provider_type := appId
          lti_configuration := none
          plugin_configuration := some
            { allow_anonymous := v.allowAnonymousPosts
              allow_anonymous_to_peers := v.allowAnonymousPostsPeers
              discussion_blackouts := bd } }

/-! ## Session state, model store and operations -/

/-- The discussions session-state slice. -/
structure DiscussionsState where
  appIds : List String
  featureIds : List String
  activeAppId : Option String
  selectedAppId : Option String
  status : LoadStatus
  saveStatus : SaveStatus
  hasValidationError : Bool
deriving DecidableEq

/-- The normalized model store: id-keyed apps, the feature catalog and
one config record per app id. -/
structure Models where
  apps : List (String × App)
  features : List String
  appConfigs : List (String × AppConfig)
deriving DecidableEq

/-- The whole store owned by the data layer. -/
structure StoreState where
  discussions : DiscussionsState
  models : Models
deriving DecidableEq

/-- Store state right after initialization: empty collections, no active
or selected app, idle load status and the `SAVED` save-status default. -/
def initialState : StoreState :=
  { discussions :=
      { appIds := [], featureIds := [], activeAppId := none, selectedAppId := none
        status := LoadStatus.IDLE, saveStatus := SaveStatus.SAVED
        hasValidationError := false }
    models := { apps := [], features := [], appConfigs := [] } }

/-- Classified outcome of one HTTP request as the orchestrators observe
it: a 2xx response with a decoded body, a 403 permission denial, or a
network-level failure with no response. -/
inductive HttpResult where
  | success (body : ApiResponse)
  | denied
  | networkError
deriving DecidableEq

/-- Replace the config record stored under `id`. -/
def setConfig (cfgs : List (String × AppConfig)) (id : String) (cfg : AppConfig) :
    List (String × AppConfig) :=
  cfgs.map (fun p => if p.1 = id then (id, cfg) else p)

/-- Look up the config record stored under `id`. -/
def lookupConfig (id : String) (cfgs : List (String × AppConfig)) : Option AppConfig :=
  (cfgs.find? (fun p => p.1 == id)).map Prod.snd

/-- Modelled from the spec: the `fetchApps` orchestrator (the thunk
source is not part of this slice) — on 2xx it runs `decodeApps` and
overwrites the model store and the fetch-owned session fields wholesale,
setting `status = LOADED`; on network failure it sets `status = FAILED`;
on 403 it sets `status = DENIED`.  `selectedAppId`, `hasValidationError`
and `saveStatus` are never touched.  The orchestrator always resolves:
it is a total function of the observed HTTP outcome. -/
def fetchApps (st : StoreState) (res : HttpResult) : StoreState :=
  match res with
  | HttpResult.success body =>
    let d := decodeApps body
    { discussions :=
        { appIds := d.apps.map App.id, featureIds := d.features
          activeAppId := some d.activeAppId
          selectedAppId := st.discussions.selectedAppId
          status := LoadStatus.LOADED, saveStatus := st.discussions.saveStatus
          hasValidationError := st.discussions.hasValidationError }
      models :=
        { apps := d.apps.map (fun a => (a.id, a)), features := d.features
          appConfigs := d.appConfigs } }
  | HttpResult.denied =>
    { st with discussions := { st.discussions with status := LoadStatus.DENIED } }
  | HttpResult.networkError =>
    { st with discussions := { st.discussions with status := LoadStatus.FAILED } }

/-- Modelled from the spec: the `saveAppConfig` orchestrator (the thunk
source is not part of this slice) — on 2xx it decodes the response
body's config for `appId` into the model store (the server's values, not
the submitted form values), sets `saveStatus = SAVED` and
`status = LOADED` and navigates to `redirectPath` (returned as
`some redirectPath`); on network failure it sets `saveStatus = FAILED`
leaving `status` unchanged; on 403 it sets both statuses to `DENIED`.
No navigation happens on either failure, and the orchestrator always
resolves: it is a total function of the observed HTTP outcome. -/
def saveAppConfig (st : StoreState) (appId : String) (_formValues : FormValues)
    (redirectPath : String) (res : HttpResult) : StoreState × Option String :=
  match res with
  | HttpResult.success body =>
    ({ st with
        discussions :=
          { st.discussions with saveStatus := SaveStatus.SAVED, status := LoadStatus.LOADED }
        models :=
          { st.models with
              appConfigs := setConfig st.models.appConfigs appId (decodeActiveConfig body) } },
      some redirectPath)
  | HttpResult.denied =>
    ({ st with
        discussions :=
          { st.discussions with status := LoadStatus.DENIED, saveStatus := SaveStatus.DENIED } },
      none)
  | HttpResult.networkError =>
    ({ st with
        discussions := { st.discussions with saveStatus := SaveStatus.FAILED } },
      none)

/-- `selectApp({appId})`: pure synchronous state update setting only
`selectedAppId`. -/
def selectApp (st : StoreState) (appId : String) : StoreState :=
  { st with discussions := { st.discussions with selectedAppId := some appId } }

/-- `updateValidationStatus({hasError})`: pure synchronous state update
setting only `hasValidationError`. -/
def updateValidationStatus (st : StoreState) (hasError : Bool) : StoreState :=
  { st with discussions := { st.discussions with hasValidationError := hasError } }

/-! ## Fixtures (from `mockApiResponses.js` and the test file) -/

/-- The `piazzaApiResponse` fixture. -/
def piazzaApiResponse : ApiResponse :=
  { context_key := "course-v1:edX+DemoX+Demo_Course"
    enabled := true
    provider_type := "piazza"
    features := ["discussion-page", "embedded-course-sections", "wcag-2.1", "lti"]
    lti_configuration := some
      { lti_1p1_client_key := "client_key_123", lti_1p1_client_secret := "client_secret_123"
        lti_1p1_launch_url := "https://localhost/example", version := "lti_1p1" }
    plugin_configuration := none
    providers :=
      { active := "piazza"
        available :=
          [("legacy", ["discussion-page", "embedded-course-sections", "wcag-2.1"]),
           ("piazza", ["discussion-page", "embedded-course-sections", "wcag-2.1", "lti"])] } }

/-- The `legacyApiResponse` fixture. -/
def legacyApiResponse : ApiResponse :=
  { context_key := "course-v1:edX+DemoX+Demo_Course"
    enabled := true
    provider_type := "legacy"
    features := ["discussion-page", "embedded-course-sections", "wcag-2.1", "lti"]
    lti_configuration := none
    plugin_configuration := some
      { allow_anonymous := false, allow_anonymous_to_peers := false
        discussion_blackouts := [] }
    providers :=
      { active := "legacy"
        available :=
          [("legacy", ["discussion-page", "embedded-course-sections", "wcag-2.1"]),
           ("piazza", ["discussion-page", "embedded-course-sections", "wcag-2.1", "lti"])] } }

/-- The course id used throughout the test file. -/
def testCourseId : String := "course-v1:edX+TestX+Test_Course"

/-- The redirect path used throughout the test file. -/
def pagesAndResourcesPath : String :=
  "/course/course-v1:edX+TestX+Test_Course/pages-and-resources"

/-- The server's response to the successful piazza save: the piazza
fixture with the `lti_configuration` replaced, the launch URL
protocol-upgraded by the server to `https`. -/
def piazzaSavedResponse : ApiResponse :=
  { piazzaApiResponse with
      lti_configuration := some
        { lti_1p1_client_key := "new_consumer_key"
          lti_1p1_client_secret := "new_consumer_secret"
          lti_1p1_launch_url := "https://localhost/new_launch_url", version := "lti_1p1" } }

/-- The server's response to the successful legacy save: the legacy
fixture with the `plugin_configuration` replaced. -/
def legacySavedResponse : ApiResponse :=
  { legacyApiResponse with
      plugin_configuration := some
        { allow_anonymous := true, allow_anonymous_to_peers := true
          discussion_blackouts :=
            [["2015-09-15", "2015-09-21"], ["2015-10-01", "2015-10-08"]] } }

/-! ## Claims -/

/-- C1: for every legacy-shaped response (the provider types whose config
carries blackout dates), `decodeApps`'s stringification of the wire
`discussion_blackouts` array composed with `encodeAppConfig`'s parse is
the identity: re-encoding the decoded config's editable fields reproduces
the original POST-equivalent body, exactly, for the blackout-dates
field. -/
theorem decode_encode_blackouts_inverse (raw : ApiResponse) (pc : PluginConfiguration)
    (courseId : String) (hlti : raw.lti_configuration = none)
    (hpc : raw.plugin_configuration = some pc) :
    ∃ c : LegacyConfig, decodeActiveConfig raw = AppConfig.legacy c ∧
      encodeAppConfig courseId raw.provider_type (FormValues.legacy c.toFormValues)
        = some
          { context_key := courseId, enabled := true
            provider_type := raw.provider_type
            lti_configuration := none
            plugin_configuration := some pc } := by
  refine ⟨{ id := raw.provider_type, allowAnonymousPosts := pc.allow_anonymous
            allowAnonymousPostsPeers := pc.allow_anonymous_to_peers
            blackoutDates := stringifyBlackouts pc.discussion_blackouts
            divideByCohorts := false, allowDivisionByUnit := false
            divideCourseWideTopics := false, divideGeneralTopic := false
            divideQuestionsForTAsTopic := false }, ?_, ?_⟩
  · simp [decodeActiveConfig, hlti, hpc]
  · simp [encodeAppConfig, LegacyConfig.toFormValues, parseBlackouts_stringify]

/-- Witness for C1 at the legacy fixture. -/
theorem decode_encode_blackouts_inverse_witness :
    ∃ c : LegacyConfig, decodeActiveConfig legacyApiResponse = AppConfig.legacy c ∧
      encodeAppConfig testCourseId legacyApiResponse.provider_type
          (FormValues.legacy c.toFormValues)
        = some
          { context_key := testCourseId, enabled := true
            provider_type := legacyApiResponse.provider_type
            lti_configuration := none
            plugin_configuration := some
              { allow_anonymous := false, allow_anonymous_to_peers := false
                discussion_blackouts := [] } } :=
  decode_encode_blackouts_inverse legacyApiResponse
    { allow_anonymous := false, allow_anonymous_to_peers := false
      discussion_blackouts := [] } testCourseId rfl rfl

/-- C2: an app decoded by `decodeApps` has `hasFullSupport = true` iff
its feature-id set contains every id of the union feature catalog; at the
piazza fixture, legacy (missing `lti`) gets `false` and piazza gets
`true`. -/
theorem hasFullSupport_iff_superset :
    (∀ (raw : ApiResponse), ∀ a ∈ (decodeApps raw).apps,
        (a.hasFullSupport = true ↔ ∀ f ∈ (decodeApps raw).features, f ∈ a.featureIds))
    ∧ (decodeApps piazzaApiResponse).apps.map (fun a => (a.id, a.hasFullSupport))
        = [("legacy", false), ("piazza", true)] := by
  constructor
  · intro raw a ha
    simp only [decodeApps, List.mem_map] at ha
    obtain ⟨p, hp, rfl⟩ := ha
    simp [decodeApps, List.all_eq_true]
  · decide

/-- Witness for C2: the piazza app of the piazza fixture decode satisfies
the superset characterization. -/
theorem hasFullSupport_iff_superset_witness :
    (App.mk "piazza" ["discussion-page", "embedded-course-sections", "wcag-2.1", "lti"]
        "http://example.com" true).hasFullSupport = true
      ↔ ∀ f ∈ (decodeApps piazzaApiResponse).features,
          f ∈ (App.mk "piazza"
            ["discussion-page", "embedded-course-sections", "wcag-2.1", "lti"]
            "http://example.com" true).featureIds :=
  hasFullSupport_iff_superset.1 piazzaApiResponse _ (by decide)

/-- C3: `fetchApps` on a 200 response equal to the piazza fixture leaves
the session state with `appIds = [legacy, piazza]`, the first-seen union
feature catalog, `activeAppId = piazza`, `status = LOADED`,
`saveStatus = SAVED`, and materializes the piazza config decoded from
`lti_configuration`. -/
theorem fetchApps_piazza_loaded :
    (fetchApps initialState (HttpResult.success piazzaApiResponse)).discussions
        = { appIds := ["legacy", "piazza"]
            featureIds := ["discussion-page", "embedded-course-sections", "wcag-2.1", "lti"]
            activeAppId := some "piazza", selectedAppId := none
            status := LoadStatus.LOADED, saveStatus := SaveStatus.SAVED
            hasValidationError := false }
    ∧ lookupConfig "piazza"
        (fetchApps initialState (HttpResult.success piazzaApiResponse)).models.appConfigs
        = some (AppConfig.lti
          { id := "piazza", consumerKey := "client_key_123"
            consumerSecret := "client_secret_123"
            launchUrl := "https://localhost/example" }) := by
  decide

/-- C4: `fetchApps` on a 200 response equal to the legacy fixture
materializes the legacy config with both anonymous-posting flags false,
`blackoutDates` equal to the string form of the empty array, and the
cohort-division fields (absent from the backend response) defaulted to
false. -/
theorem fetchApps_legacy_config_defaults :
    lookupConfig "legacy"
        (fetchApps initialState (HttpResult.success legacyApiResponse)).models.appConfigs
      = some (AppConfig.legacy
        { id := "legacy", allowAnonymousPosts := false, allowAnonymousPostsPeers := false
          blackoutDates := "[]", divideByCohorts := false, allowDivisionByUnit := false
          divideCourseWideTopics := false, divideGeneralTopic := false
          divideQuestionsForTAsTopic := false }) := by
  decide

/-- C5: on a 2xx save response, `saveAppConfig` sets
`saveStatus = SAVED` and `status = LOADED` and navigates to the redirect
path; the stored config is decoded from the server's response body, not
from the submitted form values — at the fixture, the submitted `http`
launch URL echoed back as `https` is stored as the `https` value. -/
theorem saveAppConfig_success_applies_server_values :
    (∀ (st : StoreState) (appId : String) (fv : FormValues) (redirectPath : String)
        (body : ApiResponse),
        (saveAppConfig st appId fv redirectPath
            (HttpResult.success body)).1.discussions.saveStatus = SaveStatus.SAVED
      ∧ (saveAppConfig st appId fv redirectPath
            (HttpResult.success body)).1.discussions.status = LoadStatus.LOADED
      ∧ (saveAppConfig st appId fv redirectPath
            (HttpResult.success body)).2 = some redirectPath)
    ∧ lookupConfig "piazza"
        (saveAppConfig (fetchApps initialState (HttpResult.success piazzaApiResponse))
          "piazza"
          (FormValues.lti
            { consumerKey := "new_consumer_key", consumerSecret := "new_consumer_secret"
              launchUrl := "http://localhost/new_launch_url" })
          pagesAndResourcesPath (HttpResult.success piazzaSavedResponse)).1.models.appConfigs
        = some (AppConfig.lti
          { id := "piazza", consumerKey := "new_consumer_key"
            consumerSecret := "new_consumer_secret"
            launchUrl := "https://localhost/new_launch_url" }) := by
  refine ⟨fun st appId fv redirectPath body => ⟨rfl, rfl, rfl⟩, ?_⟩
  decide

/-- C6: `saveAppConfig` classifies failures without navigating: on
network failure it sets `saveStatus = FAILED` leaving `status` at its
prior value (`LOADED` after a successful fetch); on HTTP 403 it sets both
`status = DENIED` and `saveStatus = DENIED`; neither failure navigates.
The operation is a total function of the observed outcome — it resolves
rather than throwing. -/
theorem saveAppConfig_failure_classification (st : StoreState) (appId : String)
    (fv : FormValues) (redirectPath : String) :
    ((saveAppConfig st appId fv redirectPath
        HttpResult.networkError).1.discussions.saveStatus = SaveStatus.FAILED
    ∧ (saveAppConfig st appId fv redirectPath
        HttpResult.networkError).1.discussions.status = st.discussions.status
    ∧ (saveAppConfig st appId fv redirectPath HttpResult.networkError).2 = none)
    ∧ ((saveAppConfig st appId fv redirectPath
        HttpResult.denied).1.discussions.status = LoadStatus.DENIED
    ∧ (saveAppConfig st appId fv redirectPath
        HttpResult.denied).1.discussions.saveStatus = SaveStatus.DENIED
    ∧ (saveAppConfig st appId fv redirectPath HttpResult.denied).2 = none)
    ∧ (saveAppConfig (fetchApps initialState (HttpResult.success piazzaApiResponse))
        appId fv redirectPath HttpResult.networkError).1.discussions.status
        = LoadStatus.LOADED :=
  ⟨⟨rfl, rfl, rfl⟩, ⟨rfl, rfl, rfl⟩, rfl⟩

/-- C7: `fetchApps` run from the initial state classifies failures as
network error ⇒ `status = FAILED` and HTTP 403 ⇒ `status = DENIED`; in
both cases `saveStatus` stays at its `SAVED` default and the collections
stay empty with `activeAppId = none`. -/
theorem fetchApps_failure_classification :
    (fetchApps initialState HttpResult.networkError).discussions
        = { appIds := [], featureIds := [], activeAppId := none, selectedAppId := none
            status := LoadStatus.FAILED, saveStatus := SaveStatus.SAVED
            hasValidationError := false }
    ∧ (fetchApps initialState HttpResult.denied).discussions
        = { appIds := [], featureIds := [], activeAppId := none, selectedAppId := none
            status := LoadStatus.DENIED, saveStatus := SaveStatus.SAVED
            hasValidationError := false } := by
  decide

/-- C8: for the legacy provider, `encodeAppConfig` excludes the five
cohort-division form fields from the POST body (the body is unchanged
under any values of those fields); at the test's save input the produced
body carries only the three transmitted plugin fields; and after the
successful legacy save the stored config has every cohort-division field
reset to false even though all were submitted as true. -/
theorem encode_legacy_drops_divide_fields :
    (∀ (courseId appId : String) (v : FormValuesLegacy) (b1 b2 b3 b4 b5 : Bool),
        encodeAppConfig courseId appId (FormValues.legacy
          { v with divideByCohorts := b1, allowDivisionByUnit := b2
                   divideCourseWideTopics := b3, divideGeneralTopic := b4
                   divideQuestionsForTAsTopic := b5 })
          = encodeAppConfig courseId appId (FormValues.legacy v))
    ∧ encodeAppConfig testCourseId "legacy" (FormValues.legacy
        { allowAnonymousPosts := true, allowAnonymousPostsPeers := true
          blackoutDates := "[[\"2015-09-15\",\"2015-09-21\"],[\"2015-10-01\",\"2015-10-08\"]]"
          divideByCohorts := true, allowDivisionByUnit := true
          divideCourseWideTopics := true, divideGeneralTopic := true
          divideQuestionsForTAsTopic := true })
        = some
          { context_key := testCourseId, enabled := true, provider_type := "legacy"
            lti_configuration := none
            plugin_configuration := some
              { allow_anonymous := true, allow_anonymous_to_peers := true
                discussion_blackouts :=
                  [["2015-09-15", "2015-09-21"], ["2015-10-01", "2015-10-08"]] } }
    ∧ lookupConfig "legacy"
        (saveAppConfig (fetchApps initialState (HttpResult.success legacyApiResponse))
          "legacy"
          (FormValues.legacy
            { allowAnonymousPosts := true, allowAnonymousPostsPeers := true
              blackoutDates := "[[\"2015-09-15\",\"2015-09-21\"],[\"2015-10-01\",\"2015-10-08\"]]"
              divideByCohorts := true, allowDivisionByUnit := true
              divideCourseWideTopics := true, divideGeneralTopic := true
              divideQuestionsForTAsTopic := true })
          pagesAndResourcesPath (HttpResult.success legacySavedResponse)).1.models.appConfigs
        = some (AppConfig.legacy
          { id := "legacy", allowAnonymousPosts := true, allowAnonymousPostsPeers := true
            blackoutDates := "[[\"2015-09-15\",\"2015-09-21\"],[\"2015-10-01\",\"2015-10-08\"]]"
            divideByCohorts := false, allowDivisionByUnit := false
            divideCourseWideTopics := false, divideGeneralTopic := false
            divideQuestionsForTAsTopic := false }) := by
  refine ⟨fun courseId appId v b1 b2 b3 b4 b5 => rfl, by decide, by decide⟩

/-- C9: `selectApp` and `updateValidationStatus` are pure state updates
that set only `selectedAppId` respectively `hasValidationError`, and
neither of those two fields is modified by `fetchApps` or
`saveAppConfig` on any outcome. -/
theorem user_intent_fields_frame :
    (∀ (st : StoreState) (appId : String),
        (selectApp st appId).discussions
            = { st.discussions with selectedAppId := some appId }
      ∧ (selectApp st appId).models = st.models)
    ∧ (∀ (st : StoreState) (hasError : Bool),
        (updateValidationStatus st hasError).discussions
            = { st.discussions with hasValidationError := hasError }
      ∧ (updateValidationStatus st hasError).models = st.models)
    ∧ (∀ (st : StoreState) (res : HttpResult),
        (fetchApps st res).discussions.selectedAppId = st.discussions.selectedAppId
      ∧ (fetchApps st res).discussions.hasValidationError
            = st.discussions.hasValidationError)
    ∧ (∀ (st : StoreState) (appId : String) (fv : FormValues) (redirectPath : String)
        (res : HttpResult),
        (saveAppConfig st appId fv redirectPath res).1.discussions.selectedAppId
            = st.discussions.selectedAppId
      ∧ (saveAppConfig st appId fv redirectPath res).1.discussions.hasValidationError
            = st.discussions.hasValidationError) := by
  refine ⟨fun st appId => ⟨rfl, rfl⟩, fun st hasError => ⟨rfl, rfl⟩,
    fun st res => ?_, fun st appId fv redirectPath res => ?_⟩
  · cases res <;> exact ⟨rfl, rfl⟩
  · cases res <;> exact ⟨rfl, rfl⟩

/-- C10: every app produced by `decodeApps` carries the constant
documentation URL, whatever the backend response contains. -/
theorem documentationUrl_constant (raw : ApiResponse) (a : App)
    (ha : a ∈ (decodeApps raw).apps) : a.documentationUrl = "http://example.com" := by
  simp only [decodeApps, List.mem_map] at ha
  obtain ⟨p, hp, rfl⟩ := ha
  rfl

/-- Witness for C10 at the legacy app of the piazza fixture. -/
theorem documentationUrl_constant_witness :
    (App.mk "legacy" ["discussion-page", "embedded-course-sections", "wcag-2.1"]
        "http://example.com" false).documentationUrl = "http://example.com" :=
  documentationUrl_constant piazzaApiResponse _ (by decide)

end Discussions
